import Mathlib

/-!
Verification of the notebook `rdkit_intro.ipynb`.

The notebook is sequential glue around external chemistry (RDKit, mordred) and
machine-learning (scikit-learn) libraries.  This file gives a shallow embedding
of the notebook's own code:

* the descriptor feature-conditioning pipeline (zero-std column drop, numeric
  coercion, missing-value column drop, standardization) from section 2 and the
  assignment section;
* the two Morgan-fingerprint wrapper functions and the
  `MorganFingerprintTransformer` adapter class from section 3;
* the nested experiment sweep loop from section 3.

External library calls are not reimplemented (the spec declares them
out of scope).  They appear either as abstract function parameters bundled in
`ChemOps` / `SweepOps`, constrained only by contracts the spec states for them
(`Modelled from the spec` in the doc comments), or — for pandas column
operations the notebook's own logic consists of — as direct translations of
the pandas semantics on an explicit column model.

Numeric values are modelled as `Rat` (exact arithmetic); a standard deviation
is zero / one exactly when the corresponding variance is zero / one, so the
statements about standard deviations are phrased through variances, which
avoids irrational square roots.
-/

set_option maxRecDepth 8000

/-! ## Feature matrix model (pandas DataFrame of descriptor columns) -/

/-- Pandas dtypes occurring in the mordred descriptor table: numeric
(`int64`, `float64`), boolean, and object (library error values etc.). -/
inductive Dtype
  | int64
  | float64
  | boolType
  | objType
deriving DecidableEq

/-- One cell of the descriptor table: a number, a boolean, a missing value
(`NaN`), or a non-numeric object (modelling mordred error objects). -/
inductive Cell
  | num (q : Rat)
  | bval (b : Bool)
  | nan
  | obj (tag : String)
deriving DecidableEq

/-- A named, dtyped column of cells. -/
structure Column where
  name : String
  dtype : Dtype
  cells : List Cell
deriving DecidableEq

/-- `pd.isnull` on one cell: only `NaN` counts as missing. -/
def Cell.isNull : Cell → Bool
  | .nan => true
  | _ => false

/-- The numeric value of a cell of an `int64`/`float64` column
(`describe()` skips `NaN` entries). -/
def Cell.toNumeric : Cell → Option Rat
  | .num q => some q
  | _ => none

/-- A cell read as a number, with booleans as 0/1 (used by the spec-side
notion of a constant column and by `astype('float')`). -/
def Cell.asNumber : Cell → Option Rat
  | .num q => some q
  | .bval b => some (if b then 1 else 0)
  | _ => none

/-- Arithmetic mean of a list of rationals (`0` for the empty list, since
`0 / 0 = 0` in `Rat`). -/
def mean (xs : List Rat) : Rat := xs.sum / xs.length

/-- Sample variance with `ddof = 1`, as used by `DataFrame.describe()`:
undefined (`none`, pandas `NaN`) when fewer than two values are present.
The sample standard deviation is zero exactly when this is `some 0`. -/
def sampleVar (xs : List Rat) : Option Rat :=
  if xs.length < 2 then none
  else some (((xs.map (fun x => (x - mean xs) ^ 2)).sum) / ((xs.length : Rat) - 1))

/-- Population variance with `ddof = 0`, as used by `StandardScaler`.
The standard deviation is zero / one exactly when this is zero / one. -/
def popVar (xs : List Rat) : Rat :=
  ((xs.map (fun x => (x - mean xs) ^ 2)).sum) / xs.length

/-- `select_dtypes(include=['int64', 'float64'])` membership test. -/
def Dtype.isNumeric : Dtype → Bool
  | .int64 => true
  | .float64 => true
  | _ => false

/-- The non-missing numeric values of a column, the data `describe()`
computes its `std` row from. -/
def Column.numericVals (c : Column) : List Rat := c.cells.filterMap Cell.toNumeric

/-- `stats.loc['std'] == 0` for one column: the sample standard deviation of
the column's non-missing numeric values is (defined and) zero. -/
def Column.zeroStd (c : Column) : Bool :=
  decide (sampleVar c.numericVals = some 0)

/-- Cells 221-248: compute `zero_std_cols` over the numeric-dtype columns and
`desc.drop(columns=zero_std_cols)`.  Column names in the descriptor table are
distinct, so dropping by name is dropping the columns themselves. -/
def dropZeroStd (df : List Column) : List Column :=
  df.filter (fun c => !(c.dtype.isNumeric && c.zeroStd))

/-- `pd.to_numeric(col, errors='coerce')` on one cell: numbers kept, booleans
read as 0/1, anything non-numeric (mordred error objects) coerced to `NaN`. -/
def Cell.toNumericCoerce : Cell → Cell
  | .num q => .num q
  | .bval b => .num (if b then 1 else 0)
  | .nan => .nan
  | .obj _ => .nan

/-- Cells 257-258: `desc[c] = pd.to_numeric(desc[c], errors='coerce')` for
every column; the result is a numeric column. -/
def Column.coerce (c : Column) : Column :=
  ⟨c.name, .float64, c.cells.map Cell.toNumericCoerce⟩

/-- `desc.isnull().any()` for one column. -/
def Column.hasMissing (c : Column) : Bool := c.cells.any Cell.isNull

/-- Cells 267-277: `desc = desc.loc[:, ~missing_values]` — keep only the
columns with no missing value. -/
def dropMissingCols (df : List Column) : List Column :=
  df.filter (fun c => !c.hasMissing)

/-- The section-2 feature-conditioning pipeline: drop zero-std numeric
columns, coerce every column to numeric, drop columns with missing values. -/
def conditioned (df : List Column) : List Column :=
  dropMissingCols ((dropZeroStd df).map Column.coerce)

/-- Follows the spec's words (refinement side, not the code): a column whose
"sample standard deviation is zero in the raw descriptor matrix (constant
columns)", reading the column's values as numbers with booleans as 0/1. -/
def Column.specZeroStd (c : Column) : Bool :=
  decide (sampleVar (c.cells.filterMap Cell.asNumber) = some 0)

/-- Assignment section, cell 76: `desc = desc.astype('float')` on one column
(booleans become 0/1; the notebook's table is float-convertible, and a value
`astype` cannot convert is out of scope for this path, modelled as missing). -/
def Column.astypeFloat (c : Column) : Column :=
  ⟨c.name, .float64, c.cells.map (fun x => match x.asNumber with
    | some q => .num q
    | none => .nan)⟩

/-- Assignment-section conditioning (cells 76-79): `astype('float')` then the
missing-value column drop — no zero-std drop on this path. -/
def conditionedAssign (df : List Column) : List Column :=
  dropMissingCols (df.map Column.astypeFloat)

/-- The per-column numeric matrix a conditioned table presents to the scaler. -/
def toMatrix (df : List Column) : List (List Rat) := df.map Column.numericVals

/-! ## StandardScaler -/

/-- `StandardScaler.fit_transform` on one column: subtract the column mean and
divide by the scale.  scikit-learn sets the scale to `sqrt(popVar)`; when the
variance is zero it replaces the scale by `1` (`_handle_zeros_in_scale`).
Since `sqrt(popVar)` is irrational in general, the scale is passed in as
`sigma` and constrained by `sigma ^ 2 = popVar xs` where it matters. -/
def standardizeCol (xs : List Rat) (sigma : Rat) : List Rat :=
  let mu := mean xs
  let scale := if popVar xs = 0 then 1 else sigma
  xs.map (fun x => (x - mu) / scale)

/-- `StandardScaler.fit_transform` on the whole matrix, one scale per column. -/
def standardScalerFitTransform (cols : List (List Rat)) (sigmas : List Rat) :
    List (List Rat) :=
  List.zipWith standardizeCol cols sigmas

/-- The passed-in scales are the ones scikit-learn computes: on each column of
nonzero variance, the scale squared is the population variance.  (On a
zero-variance column the scale is ignored by `standardizeCol`.) -/
def validScales (cols : List (List Rat)) (sigmas : List Rat) : Prop :=
  ∀ p ∈ List.zip cols sigmas, popVar p.1 ≠ 0 → p.2 ^ 2 = popVar p.1

/-- A constant boolean descriptor column (mordred produces `bool`-dtype
descriptors): constant in the raw matrix, hence sample std zero, but not of
`int64`/`float64` dtype. -/
def constBoolCol : Column := ⟨"nLipinski", Dtype.boolType, [.bval false, .bval false]⟩

/-- A constant `float64` descriptor column. -/
def constFloatCol : Column := ⟨"u", Dtype.float64, [.num 5, .num 5]⟩

/-! ## Morgan fingerprints (section 3)

The RDKit calls are abstract: `ChemOps` bundles the library entry points the
two wrapper functions use.  `Modelled from the spec:` the spec treats the
chemistry toolkit as an external collaborator providing
`parse(smiles) -> Molecule` (null on failure) and
`fingerprint(Molecule, length, radius) -> BitVector`; a call can in general
raise (`Except`), return a null result (`none`), or return a bit vector. -/

/-- The external chemistry library interface used by the fingerprint wrappers.
`Mol` is the opaque molecule type, `Gen` the fingerprint-generator type,
`Exn` the exception type. -/
structure ChemOps (Mol Gen Exn : Type) where
  MolFromSmiles : String → Option Mol
  GetMorganFingerprintAsBitVect : Option Mol → Nat → Nat → Except Exn (Option (List Bool))
  GetMorganGenerator : Nat → Nat → Gen
  GetFingerprint : Gen → Option Mol → Except Exn (Option (List Bool))

/-- `DataStructs.ConvertToNumpyArray(fingerprint, arr)`: resizes `arr` to the
fingerprint's length and copies the bits, so the resulting array holds exactly
the fingerprint's bits; a null fingerprint stays null. -/
def convertToNumpyArray (fp : Option (List Bool)) : Option (List Bool) := fp

/-- Modelled from the spec: the external fingerprint functions are total on
parsed molecules and return a bit vector of exactly the requested length
(`fingerprint(Molecule, length, radius) -> BitVector`), both for the direct
`GetMorganFingerprintAsBitVect` call and for a generator built by
`GetMorganGenerator(radius, fpSize)`. -/
def FingerprintLengthContract {Mol Gen Exn : Type} (ops : ChemOps Mol Gen Exn) : Prop :=
  (∀ (m : Mol) (rad n : Nat), ∃ v : List Bool,
      ops.GetMorganFingerprintAsBitVect (some m) rad n = .ok (some v) ∧ v.length = n) ∧
  (∀ (rad n : Nat) (m : Mol), ∃ v : List Bool,
      ops.GetFingerprint (ops.GetMorganGenerator rad n) (some m) = .ok (some v) ∧ v.length = n)

/-- Modelled from the spec (§7): a parse failure "propagates as null values"
rather than raising — fingerprinting a null molecule yields a null result. -/
def NullMoleculeContract {Mol Gen Exn : Type} (ops : ChemOps Mol Gen Exn) : Prop :=
  ∀ rad n : Nat, ops.GetMorganFingerprintAsBitVect none rad n = .ok none

/-- Cells 636-665 (`compute_morgan_fingerprints`): parse the SMILES string,
compute the Morgan fingerprint with `AllChem.GetMorganFingerprintAsBitVect`,
convert it to an array. -/
def compute_morgan_fingerprints {Mol Gen Exn : Type} (ops : ChemOps Mol Gen Exn)
    (smiles : String) (fingerprint_length fingerprint_radius : Nat) :
    Except Exn (Option (List Bool)) :=
  let molecule := ops.MolFromSmiles smiles
  match ops.GetMorganFingerprintAsBitVect molecule fingerprint_radius fingerprint_length with
  | .error e => .error e
  | .ok fingerprint => .ok (convertToNumpyArray fingerprint)

/-- Cells 602-634 (`compute_morgan_fingerprints_newvers`): build a Morgan
generator with `GetMorganGenerator(fingerprint_radius, fingerprint_length)`,
parse the SMILES string, compute the fingerprint, convert it to an array. -/
def compute_morgan_fingerprints_newvers {Mol Gen Exn : Type} (ops : ChemOps Mol Gen Exn)
    (smiles : String) (fingerprint_length fingerprint_radius : Nat) :
    Except Exn (Option (List Bool)) :=
  let mfpgen := ops.GetMorganGenerator fingerprint_radius fingerprint_length
  let molecule := ops.MolFromSmiles smiles
  match ops.GetFingerprint mfpgen molecule with
  | .error e => .error e
  | .ok fingerprint => .ok (convertToNumpyArray fingerprint)

/-- Cells 676-698: the `MorganFingerprintTransformer` adapter.  Its only state
is the two constructor parameters. -/
structure MorganFingerprintTransformer where
  length : Nat := 256
  radius : Nat := 4
deriving DecidableEq

/-- `fit` returns `self` and changes nothing. -/
def MorganFingerprintTransformer.fit (t : MorganFingerprintTransformer)
    (_X : List String) : MorganFingerprintTransformer :=
  t

/-- `transform`: compute the fingerprint of every SMILES string in `X` and
stack the rows (`np.vstack`) — the list of per-row results. -/
def MorganFingerprintTransformer.transform {Mol Gen Exn : Type}
    (t : MorganFingerprintTransformer) (ops : ChemOps Mol Gen Exn)
    (X : List String) : List (Except Exn (Option (List Bool))) :=
  X.map (fun m => compute_morgan_fingerprints ops m t.length t.radius)

/-- A concrete stand-in chemistry library in which every SMILES string parses
(molecules are their SMILES strings) and fingerprints are all-false vectors of
the requested length; used to exercise the theorems on concrete inputs. -/
def toyChem : ChemOps String (Nat × Nat) Unit where
  MolFromSmiles := fun s => some s
  GetMorganFingerprintAsBitVect := fun m _rad n =>
    match m with
    | some _ => .ok (some (List.replicate n false))
    | none => .ok none
  GetMorganGenerator := fun rad n => (rad, n)
  GetFingerprint := fun g m =>
    match m with
    | some _ => .ok (some (List.replicate g.2 false))
    | none => .ok none

/-- A concrete stand-in chemistry library in which no SMILES string parses,
exercising the parse-failure path. -/
def toyChemNone : ChemOps String (Nat × Nat) Unit where
  MolFromSmiles := fun _ => none
  GetMorganFingerprintAsBitVect := fun m _rad n =>
    match m with
    | some _ => .ok (some (List.replicate n false))
    | none => .ok none
  GetMorganGenerator := fun rad n => (rad, n)
  GetFingerprint := fun g m =>
    match m with
    | some _ => .ok (some (List.replicate g.2 false))
    | none => .ok none

/-! ## Experiment sweep harness (cells 790-811)

```python
results = []
for l in [32, 64, 128]:
    model.set_params(fingerprint__length=l)
    for s in tqdm([3, 10, 30, 100, 300, 1000, 3000], desc=f'l={l}'):
        for i in range(16):
            subset = train_data.sample(s)
            model.fit(subset['smiles_0'], subset['bandgap'])
            y_pred = model.predict(test_data['smiles_0'])
            results.append({'length': l, 'train_size': s, 'iteration': i,
                            'r2_score': r2_score(test_data['bandgap'], y_pred),
                            'mae': mean_absolute_error(test_data['bandgap'], y_pred)})
```

The library calls (`DataFrame.sample`, pipeline `fit`/`predict`,
`r2_score`, `mean_absolute_error`) are abstract parameters in `SweepOps`;
any of them may raise, which the embedding models with `Except`.  A raised
exception propagates: there is no `try` in the loop, so every remaining
iteration is skipped (`foldSkip`) and the `results` accumulated so far are
left as they are. -/

/-- The fixed fingerprint lengths of the outer loop. -/
def lengths : List Nat := [32, 64, 128]

/-- The fixed training-set sizes of the middle loop. -/
def sizes : List Nat := [3, 10, 30, 100, 300, 1000, 3000]

/-- A data partition: rows of (`smiles_0`, `bandgap`). -/
abbrev Dataset := List (String × Rat)

/-- One appended result dictionary
`{'length': l, 'train_size': s, 'iteration': i, 'r2_score': r2, 'mae': mae}` —
exactly these five fields. -/
structure ResultRec where
  length : Nat
  train_size : Nat
  iteration : Nat
  r2_score : Rat
  mae : Rat
deriving DecidableEq

/-- The mutable notebook state the sweep loop touches: the two partitions
from `train_test_split`, the pipeline's fingerprint parameters, the random
state consumed by `DataFrame.sample`, and the accumulating `results` list. -/
structure SweepState (Rng : Type) where
  train_data : Dataset
  test_data : Dataset
  modelLength : Nat
  modelRadius : Nat
  rng : Rng
  results : List ResultRec
deriving DecidableEq

/-- The external operations one sweep iteration calls, each fallible. -/
structure SweepOps (Rng Fitted Err : Type) where
  sample : Rng → Dataset → Nat → Except Err (Dataset × Rng)
  fit : Nat → Nat → Dataset → Except Err Fitted
  predict : Fitted → List String → Except Err (List Rat)
  r2_score : List Rat → List Rat → Except Err Rat
  mean_absolute_error : List Rat → List Rat → Except Err Rat

/-- Left fold that models exception propagation: once an error is recorded,
every remaining element is skipped and the state is left untouched. -/
def foldSkip {α σ ε : Type} (f : α → σ → σ × Option ε) :
    List α → σ × Option ε → σ × Option ε
  | [], acc => acc
  | x :: xs, acc =>
    match acc with
    | (st, some e) => foldSkip f xs (st, some e)
    | (st, none) => foldSkip f xs (f x st)

/-- The body of the innermost loop for loop variables `l`, `s`, `i`: draw a
random subset of size `s` from the training partition, fit the pipeline on
it, predict on the test partition, score, and append one result record.  If a
call raises, the state reached so far is returned with the exception. -/
def stepE {Rng Fitted Err : Type} (ops : SweepOps Rng Fitted Err)
    (l s i : Nat) (st : SweepState Rng) : SweepState Rng × Option Err :=
  match ops.sample st.rng st.train_data s with
  | .error e => (st, some e)
  | .ok (subset, rng2) =>
    match ops.fit st.modelLength st.modelRadius subset with
    | .error e => ({ st with rng := rng2 }, some e)
    | .ok fitted =>
      match ops.predict fitted (st.test_data.map Prod.fst) with
      | .error e => ({ st with rng := rng2 }, some e)
      | .ok y_pred =>
        match ops.r2_score (st.test_data.map Prod.snd) y_pred with
        | .error e => ({ st with rng := rng2 }, some e)
        | .ok r2 =>
          match ops.mean_absolute_error (st.test_data.map Prod.snd) y_pred with
          | .error e => ({ st with rng := rng2 }, some e)
          | .ok mae =>
            ({ st with rng := rng2, results := st.results ++ [⟨l, s, i, r2, mae⟩] }, none)

/-- `for i in range(16)`. -/
def runReps {Rng Fitted Err : Type} (ops : SweepOps Rng Fitted Err)
    (l s : Nat) (st : SweepState Rng) : SweepState Rng × Option Err :=
  foldSkip (fun i st => stepE ops l s i st) (List.range 16) (st, none)

/-- `for s in [3, 10, 30, 100, 300, 1000, 3000]`. -/
def runSizes {Rng Fitted Err : Type} (ops : SweepOps Rng Fitted Err)
    (l : Nat) (st : SweepState Rng) : SweepState Rng × Option Err :=
  foldSkip (fun s st => runReps ops l s st) sizes (st, none)

/-- `for l in [32, 64, 128]`, with `model.set_params(fingerprint__length=l)`
before the inner loops. -/
def runSweep {Rng Fitted Err : Type} (ops : SweepOps Rng Fitted Err)
    (st : SweepState Rng) : SweepState Rng × Option Err :=
  foldSkip (fun l st => runSizes ops l { st with modelLength := l }) lengths (st, none)

/-- The loop-variable fields of a result record. -/
def proj (r : ResultRec) : Nat × Nat × Nat := (r.length, r.train_size, r.iteration)

/-- The loop-variable triples in the order the loops visit them. -/
def sweepIdx : List (Nat × Nat × Nat) :=
  lengths.flatMap (fun l => sizes.flatMap (fun s => (List.range 16).map (fun i => (l, s, i))))

/-- Loop-position triple of a loop-variable triple: index of the length in
`lengths`, index of the size in `sizes`, repetition index. -/
def tripleOfIdx (t : Nat × Nat × Nat) : Nat × Nat × Nat :=
  (lengths.indexOf t.1, sizes.indexOf t.2.1, t.2.2)

/-- Loop-position triple of a result record. -/
def tripleOf (r : ResultRec) : Nat × Nat × Nat := tripleOfIdx (proj r)

/-- Strict lexicographic order on position triples. -/
def tripleLt (a b : Nat × Nat × Nat) : Prop :=
  a.1 < b.1 ∨ (a.1 = b.1 ∧ (a.2.1 < b.2.1 ∨ (a.2.1 = b.2.1 ∧ a.2.2 < b.2.2)))

instance (a b : Nat × Nat × Nat) : Decidable (tripleLt a b) :=
  inferInstanceAs (Decidable (a.1 < b.1 ∨ (a.1 = b.1 ∧ (a.2.1 < b.2.1 ∨ (a.2.1 = b.2.1 ∧ a.2.2 < b.2.2)))))

/-- Boolean adjacent-pairs check, kernel-evaluable on concrete lists. -/
def chainB {α : Type} (R : α → α → Bool) : List α → Bool
  | [] => true
  | [_] => true
  | a :: b :: t => R a b && chainB R (b :: t)

/-- Sweep operations that always succeed, for exercising the theorems:
sampling takes a deterministic head slice, predictions and scores are zero. -/
def okOps : SweepOps Unit Unit Unit where
  sample := fun r d n => .ok (d.take n, r)
  fit := fun _ _ _ => .ok ()
  predict := fun _ xs => .ok (xs.map (fun _ => 0))
  r2_score := fun _ _ => .ok 0
  mean_absolute_error := fun _ _ => .ok 0

/-- Sweep operations whose `fit` always raises, for exercising the
abort-on-exception theorem. -/
def failOps : SweepOps Unit Unit Unit where
  sample := fun r d n => .ok (d.take n, r)
  fit := fun _ _ _ => .error ()
  predict := fun _ xs => .ok (xs.map (fun _ => 0))
  r2_score := fun _ _ => .ok 0
  mean_absolute_error := fun _ _ => .ok 0

/-- A concrete initial sweep state: fresh partitions, default pipeline
parameters, empty `results` list. -/
def initState : SweepState Unit :=
  { train_data := [("C", 1)], test_data := [("O", 2)], modelLength := 256,
    modelRadius := 4, rng := (), results := [] }

/-! ## Generic lemmas about the exception-propagating fold -/

/-- Once an exception is recorded, the remaining iterations change nothing. -/
theorem foldSkip_error {α σ ε : Type} (f : α → σ → σ × Option ε) :
    ∀ (xs : List α) (st : σ) (e : ε), foldSkip f xs (st, some e) = (st, some e)
  | [], _, _ => rfl
  | _ :: xs, st, e => foldSkip_error f xs st e

/-- A state predicate preserved by every iteration is preserved by the fold. -/
theorem foldSkip_inv {α σ ε : Type} (f : α → σ → σ × Option ε) (P : σ → Prop)
    (hf : ∀ x st, P st → P (f x st).1) :
    ∀ (xs : List α) (acc : σ × Option ε), P acc.1 → P (foldSkip f xs acc).1
  | [], _, h => h
  | _ :: xs, (st, some e), h => foldSkip_inv f P hf xs (st, some e) h
  | x :: xs, (st, none), h => foldSkip_inv f P hf xs (f x st) (hf x st h)

/-- If every successful iteration appends its own block to the observed list
`g`, a successful fold appends the concatenation of all blocks. -/
theorem foldSkip_ok_append {α σ ε γ : Type} (f : α → σ → σ × Option ε)
    (g : σ → List γ) (h : α → List γ)
    (hf : ∀ x st st2, f x st = (st2, none) → g st2 = g st ++ h x) :
    ∀ (xs : List α) (st st2 : σ), foldSkip f xs (st, none) = (st2, none) →
      g st2 = g st ++ xs.flatMap h := by
  intro xs
  induction xs with
  | nil =>
    intro st st2 hrun
    obtain ⟨rfl, -⟩ := Prod.mk.injEq _ _ _ _ ▸ hrun
    simp
  | cons x xs ih =>
    intro st st2 hrun
    rcases hfx : f x st with ⟨st1, oe⟩
    cases oe with
    | some e =>
      have : foldSkip f (x :: xs) (st, none) = (st1, some e) := by
        simp only [foldSkip, hfx, foldSkip_error]
      rw [this] at hrun
      simp at hrun
    | none =>
      have hrun2 : foldSkip f xs (st1, none) = (st2, none) := by
        simpa only [foldSkip, hfx] using hrun
      rw [ih st1 st2 hrun2, hf x st st1 hfx, List.flatMap_cons, List.append_assoc]

/-- If, in addition, every failing iteration appends a proper leading part of
its own block, a failing fold appends a proper leading part of the
concatenation of all blocks: nothing from the failing iteration onward. -/
theorem foldSkip_err_append {α σ ε γ : Type} (f : α → σ → σ × Option ε)
    (g : σ → List γ) (h : α → List γ)
    (hf : ∀ x st st2, f x st = (st2, none) → g st2 = g st ++ h x)
    (hferr : ∀ x st st2 e, f x st = (st2, some e) →
      ∃ p t, g st2 = g st ++ p ∧ h x = p ++ t ∧ t ≠ []) :
    ∀ (xs : List α) (st st2 : σ) (e : ε), foldSkip f xs (st, none) = (st2, some e) →
      ∃ p t, g st2 = g st ++ p ∧ xs.flatMap h = p ++ t ∧ t ≠ [] := by
  intro xs
  induction xs with
  | nil =>
    intro st st2 e hrun
    simp [foldSkip] at hrun
  | cons x xs ih =>
    intro st st2 e hrun
    rcases hfx : f x st with ⟨st1, oe⟩
    cases oe with
    | some e1 =>
      have : foldSkip f (x :: xs) (st, none) = (st1, some e1) := by
        simp only [foldSkip, hfx, foldSkip_error]
      rw [this] at hrun
      obtain ⟨rfl, he⟩ := Prod.mk.injEq _ _ _ _ ▸ hrun
      obtain ⟨p, t, hg, hx, ht⟩ := hferr x st st1 e1 hfx
      refine ⟨p, t ++ xs.flatMap h, hg, ?_, by simp [ht]⟩
      rw [List.flatMap_cons, hx, List.append_assoc]
    | none =>
      have hrun2 : foldSkip f xs (st1, none) = (st2, some e) := by
        simpa only [foldSkip, hfx] using hrun
      obtain ⟨p, t, hg, hx, ht⟩ := ih st1 st2 e hrun2
      refine ⟨h x ++ p, t, ?_, ?_, ht⟩
      · rw [hg, hf x st st1 hfx, List.append_assoc]
      · rw [List.flatMap_cons, hx, List.append_assoc]

/-- Binding singleton blocks is mapping. -/
theorem flatMap_pure_eq_map {α β : Type} (g : α → β) :
    ∀ xs : List α, xs.flatMap (fun x => [g x]) = xs.map g
  | [] => rfl
  | x :: xs => by rw [List.flatMap_cons, List.map_cons, flatMap_pure_eq_map g xs]; rfl

/-! ## Behaviour of one sweep iteration -/

/-- One iteration never touches the train or test partition and never changes
the pipeline parameters, whether it succeeds or raises. -/
theorem stepE_frame {Rng Fitted Err : Type} (ops : SweepOps Rng Fitted Err)
    (l s i : Nat) (st : SweepState Rng) :
    (stepE ops l s i st).1.train_data = st.train_data ∧
    (stepE ops l s i st).1.test_data = st.test_data ∧
    (stepE ops l s i st).1.modelLength = st.modelLength := by
  unfold stepE
  repeat' split
  all_goals exact ⟨rfl, rfl, rfl⟩

/-- A successful iteration appends exactly one record carrying its loop
variables. -/
theorem stepE_ok_proj {Rng Fitted Err : Type} (ops : SweepOps Rng Fitted Err)
    (l s i : Nat) (st st2 : SweepState Rng)
    (hrun : stepE ops l s i st = (st2, none)) :
    st2.results.map proj = st.results.map proj ++ [(l, s, i)] := by
  unfold stepE at hrun
  repeat' split at hrun
  all_goals (obtain ⟨rfl, h2⟩ := Prod.mk.injEq _ _ _ _ ▸ hrun)
  all_goals (try (cases h2))
  all_goals simp [proj]

/-- A failing iteration appends no record. -/
theorem stepE_err_results {Rng Fitted Err : Type} (ops : SweepOps Rng Fitted Err)
    (l s i : Nat) (st st2 : SweepState Rng) (e : Err)
    (hrun : stepE ops l s i st = (st2, some e)) :
    st2.results = st.results := by
  unfold stepE at hrun
  repeat' split at hrun
  all_goals (obtain ⟨rfl, h2⟩ := Prod.mk.injEq _ _ _ _ ▸ hrun)
  all_goals (try (cases h2))
  all_goals rfl

/-! ## Behaviour of the three loop levels -/

/-- A completed repetition loop appends one record per repetition, in order. -/
theorem runReps_ok {Rng Fitted Err : Type} (ops : SweepOps Rng Fitted Err)
    (l s : Nat) (st st2 : SweepState Rng) (h : runReps ops l s st = (st2, none)) :
    st2.results.map proj = st.results.map proj ++ (List.range 16).map (fun i => (l, s, i)) := by
  have h2 := foldSkip_ok_append (fun i st => stepE ops l s i st)
    (fun st => st.results.map proj) (fun i => [(l, s, i)])
    (fun x st st2 hx => stepE_ok_proj ops l s x st st2 hx)
    (List.range 16) st st2 h
  rwa [flatMap_pure_eq_map (fun i => (l, s, i)) (List.range 16)] at h2

/-- A repetition loop interrupted by an exception appends the records of the
completed repetitions only — a proper leading part of its block. -/
theorem runReps_err {Rng Fitted Err : Type} (ops : SweepOps Rng Fitted Err)
    (l s : Nat) (st st2 : SweepState Rng) (e : Err)
    (h : runReps ops l s st = (st2, some e)) :
    ∃ p t, st2.results.map proj = st.results.map proj ++ p ∧
      (List.range 16).map (fun i => (l, s, i)) = p ++ t ∧ t ≠ [] := by
  have h2 := foldSkip_err_append (fun i st => stepE ops l s i st)
    (fun st => st.results.map proj) (fun i => [(l, s, i)])
    (fun x st st2 hx => stepE_ok_proj ops l s x st st2 hx)
    (fun x st st2 e1 hx => ⟨[], [(l, s, x)],
      by show st2.results.map proj = st.results.map proj ++ []
         rw [stepE_err_results ops l s x st st2 e1 hx, List.append_nil],
      by simp, by simp⟩)
    (List.range 16) st st2 e h
  rwa [flatMap_pure_eq_map (fun i => (l, s, i)) (List.range 16)] at h2

/-- The repetition loop never touches the partitions. -/
theorem runReps_frame {Rng Fitted Err : Type} (ops : SweepOps Rng Fitted Err)
    (l s : Nat) (st : SweepState Rng) :
    (runReps ops l s st).1.train_data = st.train_data ∧
    (runReps ops l s st).1.test_data = st.test_data :=
  foldSkip_inv _ (fun s2 => s2.train_data = st.train_data ∧ s2.test_data = st.test_data)
    (fun x s2 hp => ⟨by rw [(stepE_frame ops l s x s2).1, hp.1],
      by rw [(stepE_frame ops l s x s2).2.1, hp.2]⟩)
    (List.range 16) (st, none) ⟨rfl, rfl⟩

/-- A completed size loop appends each size's block of 16 records, in order. -/
theorem runSizes_ok {Rng Fitted Err : Type} (ops : SweepOps Rng Fitted Err)
    (l : Nat) (st st2 : SweepState Rng) (h : runSizes ops l st = (st2, none)) :
    st2.results.map proj = st.results.map proj ++
      sizes.flatMap (fun s => (List.range 16).map (fun i => (l, s, i))) :=
  foldSkip_ok_append (fun s st => runReps ops l s st) (fun st => st.results.map proj)
    (fun s => (List.range 16).map (fun i => (l, s, i)))
    (fun s st st2 hx => runReps_ok ops l s st st2 hx) sizes st st2 h

/-- A size loop interrupted by an exception appends a proper leading part of
its block of records. -/
theorem runSizes_err {Rng Fitted Err : Type} (ops : SweepOps Rng Fitted Err)
    (l : Nat) (st st2 : SweepState Rng) (e : Err)
    (h : runSizes ops l st = (st2, some e)) :
    ∃ p t, st2.results.map proj = st.results.map proj ++ p ∧
      sizes.flatMap (fun s => (List.range 16).map (fun i => (l, s, i))) = p ++ t ∧ t ≠ [] :=
  foldSkip_err_append (fun s st => runReps ops l s st) (fun st => st.results.map proj)
    (fun s => (List.range 16).map (fun i => (l, s, i)))
    (fun s st st2 hx => runReps_ok ops l s st st2 hx)
    (fun s st st2 e1 hx => runReps_err ops l s st st2 e1 hx) sizes st st2 e h

/-- The size loop never touches the partitions. -/
theorem runSizes_frame {Rng Fitted Err : Type} (ops : SweepOps Rng Fitted Err)
    (l : Nat) (st : SweepState Rng) :
    (runSizes ops l st).1.train_data = st.train_data ∧
    (runSizes ops l st).1.test_data = st.test_data :=
  foldSkip_inv _ (fun s2 => s2.train_data = st.train_data ∧ s2.test_data = st.test_data)
    (fun x s2 hp => ⟨by rw [(runReps_frame ops l x s2).1, hp.1],
      by rw [(runReps_frame ops l x s2).2, hp.2]⟩)
    sizes (st, none) ⟨rfl, rfl⟩

/-- A sweep that runs to completion appends exactly the records of all loop
iterations, in loop order. -/
theorem runSweep_ok_proj {Rng Fitted Err : Type} (ops : SweepOps Rng Fitted Err)
    (st st2 : SweepState Rng) (h : runSweep ops st = (st2, none)) :
    st2.results.map proj = st.results.map proj ++ sweepIdx := by
  have h2 := foldSkip_ok_append (fun l st => runSizes ops l { st with modelLength := l })
    (fun st => st.results.map proj)
    (fun l => sizes.flatMap (fun s => (List.range 16).map (fun i => (l, s, i))))
    (fun l st st2 hx => runSizes_ok ops l { st with modelLength := l } st2 hx)
    lengths st st2 h
  rwa [show lengths.flatMap (fun l => sizes.flatMap
    (fun s => (List.range 16).map (fun i => (l, s, i)))) = sweepIdx from rfl] at h2

/-- A sweep interrupted by an exception appends a proper leading part of the
full record sequence: everything before the failing iteration, nothing from
it onward. -/
theorem runSweep_err_proj {Rng Fitted Err : Type} (ops : SweepOps Rng Fitted Err)
    (st st2 : SweepState Rng) (e : Err) (h : runSweep ops st = (st2, some e)) :
    ∃ p t, st2.results.map proj = st.results.map proj ++ p ∧
      sweepIdx = p ++ t ∧ t ≠ [] := by
  have h2 := foldSkip_err_append (fun l st => runSizes ops l { st with modelLength := l })
    (fun st => st.results.map proj)
    (fun l => sizes.flatMap (fun s => (List.range 16).map (fun i => (l, s, i))))
    (fun l st st2 hx => runSizes_ok ops l { st with modelLength := l } st2 hx)
    (fun l st st2 e1 hx => runSizes_err ops l { st with modelLength := l } st2 e1 hx)
    lengths st st2 e h
  rwa [show lengths.flatMap (fun l => sizes.flatMap
    (fun s => (List.range 16).map (fun i => (l, s, i)))) = sweepIdx from rfl] at h2

/-- The whole sweep never touches the partitions. -/
theorem runSweep_frame {Rng Fitted Err : Type} (ops : SweepOps Rng Fitted Err)
    (st : SweepState Rng) :
    (runSweep ops st).1.train_data = st.train_data ∧
    (runSweep ops st).1.test_data = st.test_data :=
  foldSkip_inv _ (fun s2 => s2.train_data = st.train_data ∧ s2.test_data = st.test_data)
    (fun x s2 hp => ⟨by rw [(runSizes_frame ops x { s2 with modelLength := x }).1]; exact hp.1,
      by rw [(runSizes_frame ops x { s2 with modelLength := x }).2]; exact hp.2⟩)
    lengths (st, none) ⟨rfl, rfl⟩

/-! ## Ordering of the loop-variable triples -/

/-- Strict lexicographic order on triples is transitive. -/
theorem tripleLt_trans (a b c : Nat × Nat × Nat) :
    tripleLt a b → tripleLt b c → tripleLt a c := by
  unfold tripleLt
  omega

/-- For a transitive relation, the adjacent-pairs check gives `Pairwise`. -/
theorem chainB_pairwise {α : Type} (R : α → α → Bool)
    (htrans : ∀ a b c, R a b = true → R b c = true → R a c = true) :
    ∀ l : List α, chainB R l = true → l.Pairwise (fun a b => R a b = true)
  | [], _ => List.Pairwise.nil
  | [a], _ => by simp
  | a :: b :: t, h => by
    rw [chainB, Bool.and_eq_true] at h
    have hp := chainB_pairwise R htrans (b :: t) h.2
    refine List.Pairwise.cons ?_ hp
    intro x hx
    rcases List.mem_cons.mp hx with rfl | hxt
    · exact h.1
    · exact htrans a b x h.1 ((List.pairwise_cons.mp hp).1 x hxt)

/-- The loop visits the 336 triples in strictly increasing position order. -/
theorem sweepIdx_pairwise :
    sweepIdx.Pairwise (fun a b => tripleLt (tripleOfIdx a) (tripleOfIdx b)) := by
  have hchain : chainB (fun a b => decide (tripleLt (tripleOfIdx a) (tripleOfIdx b)))
      sweepIdx = true := by decide
  have hp := chainB_pairwise _ (fun a b c hab hbc => by
    rw [decide_eq_true_eq] at hab hbc ⊢
    exact tripleLt_trans _ _ _ hab hbc) sweepIdx hchain
  exact hp.imp (fun h => of_decide_eq_true h)

/-- There are 3 × 7 × 16 = 336 loop iterations. -/
theorem sweepIdx_length : sweepIdx.length = 336 := by decide

/-- Every loop triple has its length in `lengths`, its size in `sizes`, and
its repetition index below 16. -/
theorem sweepIdx_mem : ∀ t ∈ sweepIdx, t.1 ∈ lengths ∧ t.2.1 ∈ sizes ∧ t.2.2 < 16 := by
  decide

/-! ## Claims about the sweep harness -/

/-- C2: when the experiment sweep loop runs to completion over the 3
fingerprint lengths, 7 training-set sizes and 16 repetitions, the `results`
sequence contains exactly 3 × 7 × 16 = 336 result records. -/
theorem sweep_result_count {Rng Fitted Err : Type} (ops : SweepOps Rng Fitted Err)
    (st st2 : SweepState Rng) (hrun : runSweep ops st = (st2, none))
    (hinit : st.results = []) : st2.results.length = 336 := by
  have h := runSweep_ok_proj ops st st2 hrun
  rw [hinit] at h
  simp only [List.map_nil, List.nil_append] at h
  have h2 := congrArg List.length h
  rwa [List.length_map, sweepIdx_length] at h2

/-- C5: the sweep appends records in lexicographic loop order — for any two
records at positions `j < k`, the (length-index, size-index,
repetition-index) triple of record `j` strictly precedes that of record `k`
(`List.Pairwise` states exactly this positional property). -/
theorem sweep_results_lex_ordered {Rng Fitted Err : Type} (ops : SweepOps Rng Fitted Err)
    (st st2 : SweepState Rng) (hrun : runSweep ops st = (st2, none))
    (hinit : st.results = []) :
    st2.results.Pairwise (fun a b => tripleLt (tripleOf a) (tripleOf b)) := by
  have h := runSweep_ok_proj ops st st2 hrun
  rw [hinit] at h
  simp only [List.map_nil, List.nil_append] at h
  have hp := sweepIdx_pairwise
  rw [← h, List.pairwise_map] at hp
  exact hp

/-- C6: if any call inside a sweep iteration raises, the whole sweep aborts —
the `results` list holds exactly the records of the iterations completed
before the failure (a `take` of the full loop sequence, strictly shorter than
336), so nothing is appended for the failing iteration or any later one and
the earlier records are unchanged. -/
theorem sweep_exception_aborts {Rng Fitted Err : Type} (ops : SweepOps Rng Fitted Err)
    (st st2 : SweepState Rng) (e : Err) (hrun : runSweep ops st = (st2, some e))
    (hinit : st.results = []) :
    ∃ k, k < 336 ∧ st2.results.map proj = sweepIdx.take k := by
  obtain ⟨p, t, hg, hx, ht⟩ := runSweep_err_proj ops st st2 e hrun
  rw [hinit] at hg
  simp only [List.map_nil, List.nil_append] at hg
  refine ⟨p.length, ?_, ?_⟩
  · have hlen : sweepIdx.length = p.length + t.length := by rw [hx, List.length_append]
    rw [sweepIdx_length] at hlen
    have ht2 : 0 < t.length := List.length_pos.mpr ht
    omega
  · rw [hg, hx, List.take_left]

/-- C8: every appended record carries exactly the five fields of `ResultRec`
(`length`, `train_size`, `iteration`, `r2_score`, `mae` — the dictionary the
loop appends), and positionally its `length`, `train_size` and `iteration`
fields are the loop variables of its iteration: the projections of the
results list are exactly `sweepIdx`, and each record's length is one of the
swept lengths, its size one of the swept sizes, its iteration in `0..15`. -/
theorem sweep_record_fields {Rng Fitted Err : Type} (ops : SweepOps Rng Fitted Err)
    (st st2 : SweepState Rng) (hrun : runSweep ops st = (st2, none))
    (hinit : st.results = []) :
    st2.results.map proj = sweepIdx ∧
    ∀ r ∈ st2.results, r.length ∈ lengths ∧ r.train_size ∈ sizes ∧ r.iteration < 16 := by
  have h := runSweep_ok_proj ops st st2 hrun
  rw [hinit] at h
  simp only [List.map_nil, List.nil_append] at h
  refine ⟨h, ?_⟩
  intro r hr
  have hmem : proj r ∈ sweepIdx := by
    rw [← h]
    exact List.mem_map_of_mem proj hr
  exact sweepIdx_mem (proj r) hmem

/-- C9: the held-out test partition (and the training partition it samples
from) is fixed across the entire sweep — the sweep loop leaves both
partitions exactly as `train_test_split` produced them, so every record's
scores are computed against the same test set. -/
theorem sweep_partitions_fixed {Rng Fitted Err : Type} (ops : SweepOps Rng Fitted Err)
    (st : SweepState Rng) :
    (runSweep ops st).1.train_data = st.train_data ∧
    (runSweep ops st).1.test_data = st.test_data :=
  runSweep_frame ops st

/-- Witness for C2 on a concrete, fully evaluated sweep. -/
theorem sweep_result_count_witness :
    ((runSweep okOps initState).1).results.length = 336 :=
  sweep_result_count okOps initState (runSweep okOps initState).1 rfl rfl

/-- Witness for C5 on a concrete, fully evaluated sweep. -/
theorem sweep_results_lex_ordered_witness :
    ((runSweep okOps initState).1).results.Pairwise
      (fun a b => tripleLt (tripleOf a) (tripleOf b)) :=
  sweep_results_lex_ordered okOps initState (runSweep okOps initState).1 rfl rfl

/-- Witness for C6 on a concrete sweep whose first `fit` call raises. -/
theorem sweep_exception_aborts_witness :
    ∃ k, k < 336 ∧
      ((runSweep failOps initState).1).results.map proj = sweepIdx.take k :=
  sweep_exception_aborts failOps initState (runSweep failOps initState).1 () rfl rfl

/-- Witness for C8 on a concrete, fully evaluated sweep. -/
theorem sweep_record_fields_witness :
    ((runSweep okOps initState).1).results.map proj = sweepIdx ∧
    ∀ r ∈ ((runSweep okOps initState).1).results,
      r.length ∈ lengths ∧ r.train_size ∈ sizes ∧ r.iteration < 16 :=
  sweep_record_fields okOps initState (runSweep okOps initState).1 rfl rfl

/-! ## Claims about the fingerprint functions -/

/-- C1: for every SMILES string that parses successfully and every requested
`fingerprint_length` and `fingerprint_radius`, both `compute_morgan_fingerprints`
and `compute_morgan_fingerprints_newvers` return a bit vector of exactly the
requested length, given the spec's contract on the external fingerprint
functions. -/
theorem fingerprint_length_requested {Mol Gen Exn : Type} (ops : ChemOps Mol Gen Exn)
    (hc : FingerprintLengthContract ops) (smiles : String) (m : Mol)
    (hparse : ops.MolFromSmiles smiles = some m)
    (fingerprint_length fingerprint_radius : Nat) :
    (∃ v, compute_morgan_fingerprints ops smiles fingerprint_length fingerprint_radius =
        .ok (some v) ∧ v.length = fingerprint_length) ∧
    (∃ v, compute_morgan_fingerprints_newvers ops smiles fingerprint_length fingerprint_radius =
        .ok (some v) ∧ v.length = fingerprint_length) := by
  obtain ⟨v1, hv1, hl1⟩ := hc.1 m fingerprint_radius fingerprint_length
  obtain ⟨v2, hv2, hl2⟩ := hc.2 fingerprint_radius fingerprint_length m
  constructor
  · refine ⟨v1, ?_, hl1⟩
    simp only [compute_morgan_fingerprints]
    rw [hparse, hv1]
    rfl
  · refine ⟨v2, ?_, hl2⟩
    simp only [compute_morgan_fingerprints_newvers]
    rw [hparse, hv2]
    rfl

/-- C3: an unparsable SMILES string yields a null molecule; under the spec's
null-propagation contract the fingerprint computation returns a null result
instead of raising; and on the descriptor path, numeric coercion turns
non-numeric library results into missing values and the column filter leaves
no column with a missing value in the conditioned table. -/
theorem parse_failure_propagates_as_null {Mol Gen Exn : Type} (ops : ChemOps Mol Gen Exn)
    (hnull : NullMoleculeContract ops) (smiles : String)
    (hparse : ops.MolFromSmiles smiles = none)
    (fingerprint_length fingerprint_radius : Nat) :
    compute_morgan_fingerprints ops smiles fingerprint_length fingerprint_radius = .ok none ∧
    (∀ tag, Cell.toNumericCoerce (Cell.obj tag) = Cell.nan) ∧
    (∀ df : List Column, ∀ c ∈ conditioned df, c.hasMissing = false) := by
  refine ⟨?_, fun _ => rfl, ?_⟩
  · simp only [compute_morgan_fingerprints]
    rw [hparse, hnull fingerprint_radius fingerprint_length]
    rfl
  · intro df c hc
    unfold conditioned dropMissingCols at hc
    have h2 := (List.mem_filter.mp hc).2
    simpa using h2

/-- C10: fingerprint computation is deterministic — repeated invocations of
`compute_morgan_fingerprints` at fixed arguments agree, `transform` depends
only on the transformer's `length`/`radius` parameters and its input, and
`fit` leaves the transformer unchanged, so transforming twice (or after a
`fit`) yields the identical matrix; the sweep's only randomness enters
through the training-sample draw, which this path never touches. -/
theorem fingerprint_deterministic {Mol Gen Exn : Type} (ops : ChemOps Mol Gen Exn)
    (t1 t2 : MorganFingerprintTransformer) (X Y : List String)
    (hl : t1.length = t2.length) (hr : t1.radius = t2.radius) :
    (∀ smiles len rad, compute_morgan_fingerprints ops smiles len rad =
        compute_morgan_fingerprints ops smiles len rad) ∧
    t1.transform ops X = t2.transform ops X ∧
    (t1.fit Y).transform ops X = t1.transform ops X := by
  refine ⟨fun _ _ _ => rfl, ?_, rfl⟩
  unfold MorganFingerprintTransformer.transform
  rw [hl, hr]

/-- Witness for C1 on the concrete stand-in library. -/
theorem fingerprint_length_requested_witness :
    (∃ v, compute_morgan_fingerprints toyChem "C" 4 2 = .ok (some v) ∧ v.length = 4) ∧
    (∃ v, compute_morgan_fingerprints_newvers toyChem "C" 4 2 = .ok (some v) ∧ v.length = 4) :=
  fingerprint_length_requested toyChem
    ⟨fun _ _ n => ⟨List.replicate n false, rfl, List.length_replicate n false⟩,
     fun _ n _ => ⟨List.replicate n false, rfl, List.length_replicate n false⟩⟩
    "C" "C" rfl 4 2

/-- Witness for C3 on the concrete stand-in library that parses nothing. -/
theorem parse_failure_propagates_as_null_witness :
    compute_morgan_fingerprints toyChemNone "C1CC1" 8 2 = .ok none ∧
    (∀ tag, Cell.toNumericCoerce (Cell.obj tag) = Cell.nan) ∧
    (∀ df : List Column, ∀ c ∈ conditioned df, c.hasMissing = false) :=
  parse_failure_propagates_as_null toyChemNone (fun _ _ => rfl) "C1CC1" rfl 8 2

/-- Witness for C10 on the concrete stand-in library and the notebook's
`MorganFingerprintTransformer(4, 4)` example inputs. -/
theorem fingerprint_deterministic_witness :
    (∀ smiles len rad, compute_morgan_fingerprints toyChem smiles len rad =
        compute_morgan_fingerprints toyChem smiles len rad) ∧
    MorganFingerprintTransformer.transform ⟨4, 4⟩ toyChem ["C", "CCC", "C=O"] =
      MorganFingerprintTransformer.transform ⟨4, 4⟩ toyChem ["C", "CCC", "C=O"] ∧
    MorganFingerprintTransformer.transform
        (MorganFingerprintTransformer.fit ⟨4, 4⟩ ["C"]) toyChem ["C", "CCC", "C=O"] =
      MorganFingerprintTransformer.transform ⟨4, 4⟩ toyChem ["C", "CCC", "C=O"] :=
  fingerprint_deterministic toyChem ⟨4, 4⟩ ⟨4, 4⟩ ["C", "CCC", "C=O"] ["C"] rfl rfl

/-! ## Claims about feature conditioning -/

/-- Numeric coercion maps a missing cell to a missing cell, so a column with
a missing value still has one after `pd.to_numeric(..., errors='coerce')`. -/
theorem coerce_hasMissing (c : Column) (h : c.hasMissing = true) :
    (c.coerce).hasMissing = true := by
  unfold Column.hasMissing at h ⊢
  unfold Column.coerce
  simp only [List.any_eq_true] at h ⊢
  obtain ⟨x, hx, hnull⟩ := h
  refine ⟨x.toNumericCoerce, List.mem_map_of_mem _ hx, ?_⟩
  cases x <;> simp_all [Cell.isNull, Cell.toNumericCoerce]

/-- C4 counterexample: a constant boolean descriptor column.  Its sample
standard deviation in the raw matrix is zero (it is constant) and it has no
missing value, yet it survives the full conditioning pipeline, because the
zero-std drop only inspects columns of `int64`/`float64` dtype and the
coerced 0/1 column has no missing value either. -/
theorem constant_bool_column_survives :
    constBoolCol.specZeroStd = true ∧ constBoolCol.hasMissing = false ∧
    constBoolCol.name ∈ (conditioned [constBoolCol]).map Column.name := by
  have hvals : ([Cell.bval false, Cell.bval false].filterMap Cell.asNumber) = [0, 0] := by
    simp [Cell.asNumber]
  have hvar : sampleVar [(0 : Rat), 0] = some 0 := by
    norm_num [sampleVar, mean]
  refine ⟨?_, rfl, ?_⟩
  · simp [Column.specZeroStd, constBoolCol, hvals, hvar]
  · simp [conditioned, dropZeroStd, dropMissingCols, constBoolCol, Dtype.isNumeric,
      Column.coerce, Column.hasMissing, Cell.toNumericCoerce, Cell.isNull]

/-- C4 as amended: every column of numeric (`int64`/`float64`) dtype whose
sample standard deviation is zero, and every column containing a missing
value, is absent from the conditioned matrix (for a table with distinct
column names, as the descriptor table has). -/
theorem conditioned_drops_zero_std_and_missing (df : List Column)
    (hnodup : (df.map Column.name).Nodup) (c : Column) (hc : c ∈ df)
    (hdrop : (c.dtype.isNumeric = true ∧ c.zeroStd = true) ∨ c.hasMissing = true) :
    c.name ∉ (conditioned df).map Column.name := by
  intro hmem
  obtain ⟨c2, hc2, hname⟩ := List.mem_map.mp hmem
  unfold conditioned dropMissingCols at hc2
  obtain ⟨hc2m, hc2nomiss⟩ := List.mem_filter.mp hc2
  obtain ⟨c0, hc0, rfl⟩ := List.mem_map.mp hc2m
  unfold dropZeroStd at hc0
  obtain ⟨hc0df, hc0keep⟩ := List.mem_filter.mp hc0
  have hname0 : c0.name = c.name := hname
  have heq : c0 = c := List.inj_on_of_nodup_map hnodup hc0df hc hname0
  subst heq
  rcases hdrop with ⟨hnum, hstd⟩ | hmiss
  · rw [hnum, hstd] at hc0keep
    simp at hc0keep
  · rw [coerce_hasMissing c0 hmiss] at hc2nomiss
    simp at hc2nomiss

/-- Witness for the amended C4: a constant `float64` column is dropped. -/
theorem conditioned_drops_zero_std_and_missing_witness :
    constFloatCol.name ∉ (conditioned [constFloatCol]).map Column.name := by
  have hzero : constFloatCol.zeroStd = true := by
    have hvals : constFloatCol.numericVals = [5, 5] := by
      simp [Column.numericVals, constFloatCol, Cell.toNumeric]
    have hvar : sampleVar [(5 : Rat), 5] = some 0 := by
      norm_num [sampleVar, mean]
    simp [Column.zeroStd, hvals, hvar]
  exact conditioned_drops_zero_std_and_missing [constFloatCol] (by simp) constFloatCol
    (by simp) (Or.inl ⟨rfl, hzero⟩)

/-! ## Claims about standardization -/

/-- Sum of a centred, scaled list. -/
theorem sum_map_sub_div (xs : List Rat) (a c : Rat) :
    (xs.map (fun x => (x - a) / c)).sum = (xs.sum - xs.length * a) / c := by
  induction xs with
  | nil => simp
  | cons x xs ih =>
    simp only [List.map_cons, List.sum_cons, ih, List.length_cons, List.sum_cons]
    push_cast
    ring

/-- Sum of squares of a centred, scaled list. -/
theorem sum_map_sq_div (xs : List Rat) (a c : Rat) :
    (xs.map (fun x => ((x - a) / c) ^ 2)).sum = (xs.map (fun x => (x - a) ^ 2)).sum / c ^ 2 := by
  induction xs with
  | nil => simp
  | cons x xs ih =>
    simp only [List.map_cons, List.sum_cons, ih]
    ring

/-- A standardized column has mean exactly zero, constant columns included. -/
theorem mean_standardize (xs : List Rat) (sigma : Rat) :
    mean (standardizeCol xs sigma) = 0 := by
  rcases eq_or_ne xs [] with rfl | hne
  · simp [standardizeCol, mean]
  · have hn : (xs.length : Rat) ≠ 0 :=
      Nat.cast_ne_zero.mpr (fun h => hne (List.length_eq_zero.mp h))
    simp only [standardizeCol, mean, List.length_map]
    rw [sum_map_sub_div]
    have h0 : xs.sum - (xs.length : Rat) * (xs.sum / xs.length) = 0 := by
      field_simp
    rw [show xs.sum - (xs.length : Rat) * (xs.sum / xs.length) = 0 from h0, zero_div, zero_div]

/-- A standardized column of nonzero variance has variance exactly one. -/
theorem popVar_standardize (xs : List Rat) (sigma : Rat) (hv : popVar xs ≠ 0)
    (hs : sigma ^ 2 = popVar xs) : popVar (standardizeCol xs sigma) = 1 := by
  have hxs : xs ≠ [] := by
    rintro rfl
    exact hv (by simp [popVar])
  have hn : (xs.length : Rat) ≠ 0 :=
    Nat.cast_ne_zero.mpr (fun h => hxs (List.length_eq_zero.mp h))
  have hsig2 : sigma ^ 2 ≠ 0 := by rw [hs]; exact hv
  have hscale : (if popVar xs = 0 then (1 : Rat) else sigma) = sigma := if_neg hv
  have hmz := mean_standardize xs sigma
  unfold popVar
  rw [hmz]
  simp only [sub_zero, standardizeCol, hscale, List.map_map, Function.comp_def, List.length_map]
  rw [sum_map_sq_div, hs]
  have hS : (xs.map (fun x => (x - mean xs) ^ 2)).sum = popVar xs * xs.length := by
    rw [popVar]
    field_simp
  rw [hS]
  field_simp

/-- C7 as amended: after standardization every column has mean exactly zero;
a column of nonzero variance has variance (hence standard deviation) exactly
one; a constant column, however, is mapped to the all-zero column (variance
zero), because scikit-learn replaces a zero scale by one. -/
theorem standardized_mean_zero_var_one (xs : List Rat) (sigma : Rat)
    (hs : sigma ^ 2 = popVar xs) :
    mean (standardizeCol xs sigma) = 0 ∧
    (popVar xs ≠ 0 → popVar (standardizeCol xs sigma) = 1) :=
  ⟨mean_standardize xs sigma, fun hv => popVar_standardize xs sigma hv hs⟩

/-- Witness for the amended C7 on the concrete column `[0, 2]` with scale 1. -/
theorem standardized_mean_zero_var_one_witness :
    mean (standardizeCol [0, 2] 1) = 0 ∧
    (popVar [(0 : Rat), 2] ≠ 0 → popVar (standardizeCol [0, 2] 1) = 1) :=
  standardized_mean_zero_var_one [0, 2] 1 (by norm_num [popVar, mean])

/-- C7 counterexample: on the assignment-section path the conditioned matrix
can retain a constant column (that path never drops zero-variance columns);
standardizing it with scikit-learn's scale yields the all-zero column, whose
variance is 0, not 1 — its standard deviation is 0, refuting "every feature
column has standard deviation 1". -/
theorem constant_column_not_unit_std :
    validScales (toMatrix (conditionedAssign [constFloatCol])) [0] ∧
    ∃ col ∈ standardScalerFitTransform (toMatrix (conditionedAssign [constFloatCol])) [0],
      popVar col ≠ 1 := by
  have hmat : toMatrix (conditionedAssign [constFloatCol]) = [[5, 5]] := by
    simp [toMatrix, conditionedAssign, dropMissingCols, constFloatCol, Column.astypeFloat,
      Column.hasMissing, Cell.isNull, Cell.asNumber, Column.numericVals, Cell.toNumeric]
  have hvar : popVar [(5 : Rat), 5] = 0 := by norm_num [popVar, mean]
  have hstd : standardizeCol [(5 : Rat), 5] 0 = [0, 0] := by
    simp only [standardizeCol, hvar, if_pos]
    norm_num [mean]
  constructor
  · rw [hmat]
    unfold validScales
    intro p hp
    simp only [List.zip_cons_cons, List.zip_nil_right, List.mem_singleton] at hp
    subst hp
    intro hv
    exact absurd hvar hv
  · rw [hmat]
    refine ⟨[0, 0], ?_, by norm_num [popVar, mean]⟩
    simp [standardScalerFitTransform, hstd]
